import Mathlib

/-!
Verification of the `dvdFilmBorrow` HTTP API (`src/dvdfilmborrow/app/main.py`).

The application registers three GET routes with a web framework:

* `GET /` returns `{"message": "Welcome to the DVD Film API"}`;
* `GET /greet/{name}` returns `{"message": f"Moi, {name}!"}` with `name` an
  untyped (string) path parameter;
* `GET /add/{number1}/{number2}` declares both parameters as `int`, so the
  framework coerces the raw path segments and answers 422 when coercion
  fails; on success it returns
  `{"message": f"{number1=} + {number2=} = {number1 + number2}"}`.

We embed the handlers as pure functions on association lists (Python dicts
with string keys and string values), and the framework's routing and
path-parameter coercion as a dispatch function on abstract requests.
Python integers are unbounded, so `int` is embedded as `Int`; Python's
`str`/`repr` of an `int` is its minimal decimal rendering with a leading
`-` for negatives, which coincides with Lean's `toString : Int → String`.
-/

namespace DvdFilmBorrow

/-- Embeds the handler `root` in `app/main.py`:
`return {"message": "Welcome to the DVD Film API"}`. -/
def root : List (String × String) :=
  [("message", "Welcome to the DVD Film API")]

/-- Embeds the handler `greet` in `app/main.py`:
`return {"message": f"Moi, {name}!"}`. -/
def greet (name : String) : List (String × String) :=
  [("message", "Moi, " ++ name ++ "!")]

/-- Embeds the handler `add_numbers` in `app/main.py`:
`return {"message": f"{number1=} + {number2=} = {number1 + number2}"}`.
Python's debug-style f-string field `{x=}` renders as the literal variable
name, `=`, then `repr x`; for an `int`, `repr` equals `str`, the decimal
rendering embedded here as `toString`. -/
def add_numbers (number1 number2 : Int) : List (String × String) :=
  [("message",
    "number1=" ++ toString number1 ++ " + number2=" ++ toString number2 ++
      " = " ++ toString (number1 + number2))]

/-- A request matching one of the three registered route templates.  For
`/add/{number1}/{number2}` the two path segments are kept as raw strings,
since the framework still has to coerce them to integers; for
`/greet/{name}` the parameter is untyped, so the segment is passed through
as a string unchanged. -/
inductive Request where
  | root
  | greet (name : String)
  | add (seg1 seg2 : String)
deriving DecidableEq

/-- Outcome of dispatching a request: a 200 success carrying the handler's
payload, or a 422 validation error naming the offending fields. -/
inductive Result where
  | success (body : List (String × String))
  | validation (fields : List String)
deriving DecidableEq

/-- HTTP status code of a result. -/
def Result.status : Result → Nat
  | .success _ => 200
  | .validation _ => 422

/-- The fields reported by a validation error (empty on success). -/
def Result.errorFields : Result → List String
  | .success _ => []
  | .validation fields => fields

/-- Numeric value of a decimal digit character. -/
def charToDigit (c : Char) : Nat := c.toNat - 48

/-- Value of a big-endian list of decimal digit characters. -/
def decDigitsVal (l : List Char) : Nat :=
  l.foldl (fun a c => 10 * a + charToDigit c) 0

/-- Modelled from the spec: the framework's path-parameter type coercion
for `int` parameters (the validation step of `/add/{number1}/{number2}`,
which lives in the web framework, not in this repository).  A path
segment parses as an integer iff it is an optional sign (`-` or `+`)
followed by one or more decimal digits; anything else (e.g. `abc`,
`1.5`, the empty segment) is rejected. -/
def parseIntChars : List Char → Option Int
  | [] => none
  | c :: cs =>
    if c = '-' then
      if cs ≠ [] ∧ cs.all Char.isDigit then some (-(decDigitsVal cs : Int))
      else none
    else if c = '+' then
      if cs ≠ [] ∧ cs.all Char.isDigit then some (decDigitsVal cs : Int)
      else none
    else if (c :: cs).all Char.isDigit then some (decDigitsVal (c :: cs) : Int)
    else none

/-- Integer coercion of a raw path segment (see `parseIntChars`). -/
def parseIntSegment (s : String) : Option Int :=
  parseIntChars s.data

/-- Dispatch of a request by the router: `root` and `greet` always run
their handler; for `add` the framework first coerces both segments to
integers, and only when both succeed is `add_numbers` executed, otherwise
a 422 validation error reports every offending field. -/
def handle : Request → Result
  | .root => .success root
  | .greet name => .success (greet name)
  | .add seg1 seg2 =>
    match parseIntSegment seg1, parseIntSegment seg2 with
    | some number1, some number2 => .success (add_numbers number1 number2)
    | o1, o2 =>
      .validation ((if o1 = none then ["number1"] else []) ++
        (if o2 = none then ["number2"] else []))

/-- The `<sum>` component of an `add_numbers` message: the text after the
final `=` sign, with the separating space removed. -/
def sumComponent (s : String) : String :=
  ⟨((s.data.reverse.takeWhile fun c => c ≠ '=').reverse).dropWhile
    fun c => c = ' '⟩

/-- The application's server-side state.  The module `app/main.py` defines
no mutable globals and the handlers touch no storage, so the state carried
across requests is trivial. -/
def AppState : Type := Unit

/-- Serving one request: produce the dispatch result and the (unchanged)
application state. -/
def serve (σ : AppState) (r : Request) : Result × AppState :=
  (handle r, σ)

/-- State of the application after serving a list of requests in order. -/
def serveMany (σ : AppState) : List Request → AppState
  | [] => σ
  | r :: rs => serveMany (serve σ r).2 rs

/-! ### Decimal rendering round-trips through the framework's coercion

Lean's `toString : Int → String` (the embedding of Python's `str`/`repr` on
`int`) produces an optional `-` sign followed by decimal digits, and
`parseIntSegment` maps it back to the original integer. -/

theorem charToDigit_digitChar {d : Nat} (h : d < 10) :
    charToDigit (Nat.digitChar d) = d := by
  interval_cases d <;> rfl

theorem isDigit_digitChar {d : Nat} (h : d < 10) :
    (Nat.digitChar d).isDigit = true := by
  interval_cases d <;> rfl

theorem toDigitsCore_succ (f n : Nat) (acc : List Char) :
    Nat.toDigitsCore 10 (f + 1) n acc =
      if n / 10 = 0 then Nat.digitChar (n % 10) :: acc
      else Nat.toDigitsCore 10 f (n / 10) (Nat.digitChar (n % 10) :: acc) :=
  rfl

theorem foldl_toDigitsCore :
    ∀ (f n : Nat) (acc : List Char), n < f →
      (Nat.toDigitsCore 10 f n acc).foldl (fun a c => 10 * a + charToDigit c) 0 =
        acc.foldl (fun a c => 10 * a + charToDigit c) n := by
  intro f
  induction f with
  | zero => intro n acc h; omega
  | succ f ih =>
    intro n acc h
    have hmod : n % 10 < 10 := Nat.mod_lt n (by norm_num)
    rw [toDigitsCore_succ]
    by_cases h10 : n / 10 = 0
    · rw [if_pos h10]
      simp only [List.foldl_cons]
      rw [charToDigit_digitChar hmod]
      have hx : 10 * 0 + n % 10 = n := by omega
      rw [hx]
    · rw [if_neg h10, ih (n / 10) _ (by omega)]
      simp only [List.foldl_cons]
      rw [charToDigit_digitChar hmod]
      have hx : 10 * (n / 10) + n % 10 = n := by omega
      rw [hx]

theorem all_isDigit_toDigitsCore :
    ∀ (f n : Nat) (acc : List Char), acc.all Char.isDigit = true →
      (Nat.toDigitsCore 10 f n acc).all Char.isDigit = true := by
  intro f
  induction f with
  | zero => intro n acc h; exact h
  | succ f ih =>
    intro n acc h
    have hmod : n % 10 < 10 := Nat.mod_lt n (by norm_num)
    have hcons : (Nat.digitChar (n % 10) :: acc).all Char.isDigit = true := by
      rw [List.all_cons, isDigit_digitChar hmod, h]
      rfl
    rw [toDigitsCore_succ]
    by_cases h10 : n / 10 = 0
    · rw [if_pos h10]; exact hcons
    · rw [if_neg h10]; exact ih (n / 10) _ hcons

theorem length_le_toDigitsCore :
    ∀ (f n : Nat) (acc : List Char),
      acc.length ≤ (Nat.toDigitsCore 10 f n acc).length := by
  intro f
  induction f with
  | zero => intro n acc; exact Nat.le_refl _
  | succ f ih =>
    intro n acc
    rw [toDigitsCore_succ]
    by_cases h10 : n / 10 = 0
    · rw [if_pos h10]; exact Nat.le_succ _
    · rw [if_neg h10]
      have h1 : acc.length ≤ (Nat.digitChar (n % 10) :: acc).length := by simp
      exact Nat.le_trans h1 (ih (n / 10) _)

theorem toDigitsCore_ne_nil (f n : Nat) (acc : List Char) :
    Nat.toDigitsCore 10 (f + 1) n acc ≠ [] := by
  rw [toDigitsCore_succ]
  by_cases h10 : n / 10 = 0
  · rw [if_pos h10]; exact List.cons_ne_nil _ _
  · rw [if_neg h10]
    intro hnil
    have hlen := length_le_toDigitsCore f (n / 10) (Nat.digitChar (n % 10) :: acc)
    rw [hnil] at hlen
    simp at hlen

theorem decDigitsVal_toDigits (n : Nat) :
    decDigitsVal (Nat.toDigits 10 n) = n := by
  have h := foldl_toDigitsCore (n + 1) n [] (Nat.lt_succ_self n)
  simpa [decDigitsVal, Nat.toDigits] using h

theorem toDigits_all_isDigit (n : Nat) :
    (Nat.toDigits 10 n).all Char.isDigit = true :=
  all_isDigit_toDigitsCore (n + 1) n [] rfl

theorem toDigits_ne_nil (n : Nat) : Nat.toDigits 10 n ≠ [] :=
  toDigitsCore_ne_nil n n []

theorem data_toString_int_ofNat (n : Nat) :
    (toString (Int.ofNat n)).data = Nat.toDigits 10 n := rfl

theorem data_toString_int_negSucc (n : Nat) :
    (toString (Int.negSucc n)).data = '-' :: Nat.toDigits 10 (n + 1) := rfl

theorem isDigit_ne_special {c : Char} (h : c.isDigit = true) :
    c ≠ '-' ∧ c ≠ '+' ∧ c ≠ '=' ∧ c ≠ ' ' := by
  refine ⟨?_, ?_, ?_, ?_⟩ <;> (rintro rfl; revert h; decide)

theorem parseIntChars_digits {l : List Char} (hne : l ≠ [])
    (hdig : l.all Char.isDigit = true) :
    parseIntChars l = some (decDigitsVal l : Int) := by
  match l, hne with
  | c :: cs, _ =>
    have hc : c.isDigit = true := by
      rw [List.all_cons] at hdig
      exact (Bool.and_eq_true_iff.mp hdig).1
    obtain ⟨hm, hp, _, _⟩ := isDigit_ne_special hc
    simp only [parseIntChars]
    rw [if_neg hm, if_neg hp, if_pos hdig]

theorem parseIntSegment_toString (a : Int) :
    parseIntSegment (toString a) = some a := by
  cases a with
  | ofNat n =>
    rw [parseIntSegment, data_toString_int_ofNat,
      parseIntChars_digits (toDigits_ne_nil n) (toDigits_all_isDigit n),
      decDigitsVal_toDigits]
    rfl
  | negSucc n =>
    rw [parseIntSegment, data_toString_int_negSucc]
    simp only [parseIntChars]
    rw [if_pos trivial,
      if_pos ⟨toDigits_ne_nil (n + 1), toDigits_all_isDigit (n + 1)⟩,
      decDigitsVal_toDigits]
    simp [Int.negSucc_eq]

/-! ### Extracting the sum component of the addition message -/

theorem toString_int_chars (i : Int) :
    (toString i).data ≠ [] ∧
      ∀ c ∈ (toString i).data, c.isDigit = true ∨ c = '-' := by
  cases i with
  | ofNat n =>
    rw [data_toString_int_ofNat]
    exact ⟨toDigits_ne_nil n, fun c hc =>
      Or.inl (List.all_eq_true.mp (toDigits_all_isDigit n) c hc)⟩
  | negSucc n =>
    rw [data_toString_int_negSucc]
    refine ⟨List.cons_ne_nil _ _, fun c hc => ?_⟩
    rcases List.mem_cons.mp hc with rfl | hc
    · exact Or.inr rfl
    · exact Or.inl (List.all_eq_true.mp (toDigits_all_isDigit (n + 1)) c hc)

theorem sumComponent_append (pre t : String) (hne : t.data ≠ [])
    (ht : ∀ c ∈ t.data, c.isDigit = true ∨ c = '-') :
    sumComponent (pre ++ " = " ++ t) = t := by
  obtain ⟨c0, rest, hd⟩ : ∃ c0 rest, t.data = c0 :: rest := by
    cases hcc : t.data with
    | nil => exact absurd hcc hne
    | cons a l => exact ⟨a, l, rfl⟩
  have hsplit : (pre ++ " = " ++ t).data.reverse
      = t.data.reverse ++ (' ' :: ('=' :: (' ' :: pre.data.reverse))) := by
    have hm : (" = " : String).data = [' ', '=', ' '] := rfl
    simp [String.data_append, hm, List.reverse_append]
  have hall : ∀ c ∈ t.data.reverse, (decide (c ≠ '=')) = true := by
    intro c hc
    rcases ht c (List.mem_reverse.mp hc) with hdg | rfl
    · exact decide_eq_true (isDigit_ne_special hdg).2.2.1
    · decide
  simp only [sumComponent]
  rw [hsplit, List.takeWhile_append_of_pos hall]
  have htw : List.takeWhile (fun c => decide (c ≠ '='))
      (' ' :: ('=' :: (' ' :: pre.data.reverse))) = [' '] := rfl
  rw [htw, List.reverse_append, List.reverse_reverse]
  have hrev : ([' '] : List Char).reverse ++ t.data = ' ' :: t.data := rfl
  rw [hrev]
  have hsp : List.dropWhile (fun c => decide (c = ' ')) (' ' :: t.data)
      = List.dropWhile (fun c => decide (c = ' ')) t.data := rfl
  rw [hsp, hd]
  have hc0 : ¬(decide (c0 = ' ') = true) := by
    rcases ht c0 (by rw [hd]; exact List.mem_cons_self _ _) with hdg | rfl
    · simpa using (isDigit_ne_special hdg).2.2.2
    · decide
  rw [Bool.not_eq_true] at hc0
  have hfin : List.dropWhile (fun c => decide (c = ' ')) (c0 :: rest)
      = c0 :: rest := by
    simp [List.dropWhile_cons, hc0]
  rw [hfin, ← hd]

/-! ### The claims -/

/-- C1: for all integers `a` and `b` (including negative and zero),
`GET /add/{a}/{b}` (path segments the decimal renderings of `a` and `b`)
succeeds with status 200 and its response message is verbatim the
debug-style f-string output `number1=<a> + number2=<b> = <a+b>`, with the
literal variable names in the text. -/
theorem add_endpoint_message (a b : Int) :
    handle (.add (toString a) (toString b)) =
      .success [("message",
        "number1=" ++ toString a ++ " + number2=" ++ toString b ++
          " = " ++ toString (a + b))] ∧
    (handle (.add (toString a) (toString b))).status = 200 := by
  have h : handle (.add (toString a) (toString b))
      = .success (add_numbers a b) := by
    simp only [handle, parseIntSegment_toString]
  exact ⟨h, by rw [h]; rfl⟩

/-- C2: `GET /add/{number1}/{number2}` answers 422 exactly when one of the
two path segments fails integer coercion; each failing segment's field is
reported, and when both segments coerce the handler `add_numbers` runs (so
on failure no sum is ever computed). -/
theorem add_endpoint_validation (seg1 seg2 : String) :
    ((handle (.add seg1 seg2)).status = 422 ↔
      (parseIntSegment seg1 = none ∨ parseIntSegment seg2 = none)) ∧
    (parseIntSegment seg1 = none →
      "number1" ∈ (handle (.add seg1 seg2)).errorFields) ∧
    (parseIntSegment seg2 = none →
      "number2" ∈ (handle (.add seg1 seg2)).errorFields) ∧
    (∀ number1 number2, parseIntSegment seg1 = some number1 →
      parseIntSegment seg2 = some number2 →
      handle (.add seg1 seg2) = .success (add_numbers number1 number2)) := by
  cases h1 : parseIntSegment seg1 <;> cases h2 : parseIntSegment seg2 <;>
    simp [handle, h1, h2, Result.status, Result.errorFields]

/-- C2 witness: the concrete request `GET /add/abc/5` is rejected with 422
and the error names the field `number1`. -/
theorem add_endpoint_validation_witness :
    (handle (.add "abc" "5")).status = 422 ∧
      "number1" ∈ (handle (.add "abc" "5")).errorFields :=
  ⟨((add_endpoint_validation "abc" "5").1).mpr (Or.inl (by decide)),
    ((add_endpoint_validation "abc" "5").2.1) (by decide)⟩

/-- C3: for every string accepted as the `{name}` segment,
`GET /greet/{name}` returns status 200 with body
`{"message": "Moi, <name>!"}`, the input interpolated literally. -/
theorem greet_endpoint (name : String) :
    handle (.greet name) = .success [("message", "Moi, " ++ name ++ "!")] ∧
    (handle (.greet name)).status = 200 :=
  ⟨rfl, rfl⟩

/-- C4: `GET /` always returns exactly
`{"message": "Welcome to the DVD Film API"}` with status 200. -/
theorem root_endpoint :
    handle .root = .success [("message", "Welcome to the DVD Film API")] ∧
    (handle .root).status = 200 :=
  ⟨rfl, rfl⟩

/-- C5: every successful response of every endpoint is a mapping with the
single key `message` bound to a string; no other keys appear. -/
theorem success_body_single_message (r : Request)
    (body : List (String × String)) (h : handle r = .success body) :
    ∃ v : String, body = [("message", v)] := by
  cases r with
  | root =>
    injection h with h'
    exact ⟨"Welcome to the DVD Film API", h'.symm⟩
  | greet name =>
    injection h with h'
    exact ⟨"Moi, " ++ name ++ "!", h'.symm⟩
  | add seg1 seg2 =>
    cases h1 : parseIntSegment seg1 with
    | none =>
      simp only [handle, h1] at h
      exact Result.noConfusion h
    | some number1 =>
      cases h2 : parseIntSegment seg2 with
      | none =>
        simp only [handle, h1, h2] at h
        exact Result.noConfusion h
      | some number2 =>
        simp only [handle, h1, h2] at h
        injection h with h'
        exact ⟨"number1=" ++ toString number1 ++ " + number2=" ++
          toString number2 ++ " = " ++ toString (number1 + number2), h'.symm⟩

/-- C5 witness: the welcome payload is a single-key `message` mapping. -/
theorem success_body_single_message_witness :
    ∃ v : String,
      [("message", "Welcome to the DVD Film API")] = [("message", v)] :=
  success_body_single_message .root
    [("message", "Welcome to the DVD Film API")] rfl

/-- C6: the handlers for `GET /` and `GET /greet/{name}` are total: for
every input they produce a 200 success and the validation branch is
unreachable. -/
theorem root_greet_total (name : String) :
    (∃ body, handle .root = .success body) ∧
    (∃ body, handle (.greet name) = .success body) ∧
    (handle .root).status = 200 ∧ (handle (.greet name)).status = 200 ∧
    (∀ fields, handle .root ≠ .validation fields) ∧
    (∀ fields, handle (.greet name) ≠ .validation fields) :=
  ⟨⟨root, rfl⟩, ⟨greet name, rfl⟩, rfl, rfl,
    fun _ h => Result.noConfusion h, fun _ h => Result.noConfusion h⟩

/-- C7: every endpoint is deterministic and stateless: the response to a
request is `handle r`, independent of the server state reached by any
prior history of requests, and serving a request leaves the application
state unchanged (there is no hidden state). -/
theorem endpoints_stateless_deterministic (σ1 σ2 : AppState)
    (past1 past2 : List Request) (r : Request) :
    (serve (serveMany σ1 past1) r).1 = (serve (serveMany σ2 past2) r).1 ∧
    (serve (serveMany σ1 past1) r).1 = handle r ∧
    (serve (serveMany σ1 past1) r).2 = serveMany σ1 past1 :=
  ⟨rfl, rfl, rfl⟩

/-- C8: the concrete addition request with path segments `-2` and `5`
(negative first argument) succeeds with status 200 and body
`{"message": "number1=-2 + number2=5 = 3"}`. -/
theorem add_neg_scenario :
    handle (.add "-2" "5") =
      .success [("message", "number1=-2 + number2=5 = 3")] ∧
    (handle (.add "-2" "5")).status = 200 :=
  ⟨by decide, by decide⟩

/-- C9: the addition endpoint computes the exact mathematical integer sum:
for all integers `a`, `b` the `<sum>` component of the message of
`GET /add/{a}/{b}` is the decimal rendering of `a + b` over unbounded
integers (reading it back yields exactly `a + b`, with no wraparound). -/
theorem add_sum_exact (a b : Int) :
    ∃ msg : String,
      handle (.add (toString a) (toString b)) = .success [("message", msg)] ∧
      parseIntSegment (sumComponent msg) = some (a + b) := by
  refine ⟨"number1=" ++ toString a ++ " + number2=" ++ toString b ++
    " = " ++ toString (a + b), ?_, ?_⟩
  · simp only [handle, parseIntSegment_toString]
    rfl
  · rw [sumComponent_append ("number1=" ++ toString a ++ " + number2=" ++
        toString b) (toString (a + b)) (toString_int_chars (a + b)).1
        (toString_int_chars (a + b)).2,
      parseIntSegment_toString]

/-- C10: the computed sum is commutative in the arguments: the `<sum>`
component of the message of `GET /add/{a}/{b}` equals the `<sum>`
component of the message of `GET /add/{b}/{a}`. -/
theorem add_sum_commutative (a b : Int) :
    ∃ m1 m2 : String,
      handle (.add (toString a) (toString b)) = .success [("message", m1)] ∧
      handle (.add (toString b) (toString a)) = .success [("message", m2)] ∧
      sumComponent m1 = sumComponent m2 := by
  refine ⟨"number1=" ++ toString a ++ " + number2=" ++ toString b ++
      " = " ++ toString (a + b),
    "number1=" ++ toString b ++ " + number2=" ++ toString a ++
      " = " ++ toString (b + a), ?_, ?_, ?_⟩
  · simp only [handle, parseIntSegment_toString]
    rfl
  · simp only [handle, parseIntSegment_toString]
    rfl
  · rw [sumComponent_append ("number1=" ++ toString a ++ " + number2=" ++
        toString b) (toString (a + b)) (toString_int_chars (a + b)).1
        (toString_int_chars (a + b)).2,
      sumComponent_append ("number1=" ++ toString b ++ " + number2=" ++
        toString a) (toString (b + a)) (toString_int_chars (b + a)).1
        (toString_int_chars (b + a)).2,
      Int.add_comm a b]

end DvdFilmBorrow
